import Mathlib

/-!
Shallow embedding of src/spl_scraper.py (a Saudi-Post maps scraper that
builds a regions - cities - districts dataset, writes it as JSON and
renders it to a spreadsheet) together with theorems settling the frozen
claims about it.

Modelling conventions:
* Python values that may be either an int or a str (city ids, the region
  foreign key coming from the remote JSON) are modelled by the type PyVal;
  Python equality of an int with a str is False, which the derived
  equality of PyVal reproduces (different constructors are never equal).
* Python dicts are modelled by association lists in insertion order, with
  an update operation that replaces in place or appends, exactly like the
  CPython dict assignment that the scraper relies on.
* Network and parse effects: json.loads applied to a response body either
  raises or yields a value, so the scraper functions take the parse
  outcome of the relevant body as an argument of type Except PyErr.
  Exceptions that the Python code does not catch are modelled by Except
  error results that the embedded functions propagate.
-/

/-- Python exceptions relevant to the scraper: ValueError from int(),
KeyError from a missing tag attribute, and json.JSONDecodeError (raised by
json.loads both on an empty body and on a malformed one). -/
inductive PyErr where
  | valueError
  | keyError
  | jsonDecodeError
  deriving DecidableEq, Repr

instance {e a : Type} [DecidableEq e] [DecidableEq a] : DecidableEq (Except e a) :=
  fun x y =>
    match x, y with
    | .error u, .error v =>
        if h : u = v then .isTrue (by rw [h]) else .isFalse (by intro hc; cases hc; exact h rfl)
    | .ok u, .ok v =>
        if h : u = v then .isTrue (by rw [h]) else .isFalse (by intro hc; cases hc; exact h rfl)
    | .error _, .ok _ => .isFalse (by intro hc; cases hc)
    | .ok _, .error _ => .isFalse (by intro hc; cases hc)

/-- Python scalar that is either an int or a str. Used for the city id
(pkCityID), the region foreign key (fkEmirateID) and the keys of the
merged-districts dict. Equality between the two constructors is False,
matching Python where an int never equals a str. -/
inductive PyVal where
  | int (n : Int)
  | str (s : String)
  deriving DecidableEq, Repr

/-- Python builtin str applied to a PyVal: str(5) is the string 5, str of
a str is itself. Models the str(city_id) call in get_districts. -/
def pyToStr : PyVal → PyVal
  | .int n => .str (toString n)
  | .str s => .str s

/-- CPython dict assignment d[k] = v on an insertion-ordered association
list: replace the value of the first matching key in place, else append
the new pair at the end. -/
def dictUpd {α β : Type} [DecidableEq α] : List (α × β) → α → β → List (α × β)
  | [], k, v => [(k, v)]
  | (k₀, v₀) :: rest, k, v =>
      if k₀ = k then (k₀, v) :: rest else (k₀, v₀) :: dictUpd rest k v

/-- CPython dict lookup d.get(k): value of the first matching key. -/
def dictGet {α β : Type} [DecidableEq α] : List (α × β) → α → Option β
  | [], _ => none
  | (k₀, v₀) :: rest, k => if k₀ = k then some v₀ else dictGet rest k

/-- Source line 46: RESULTS_JSON constant. -/
def RESULTS_JSON : String := "region_cities_districts.json"

/-- Source line 47: RESULTS_EXCEL constant (the source assigns it the same
JSON filename as RESULTS_JSON). -/
def RESULTS_EXCEL : String := "region_cities_districts.json"

/-- File formats that main writes to disk. -/
inductive FileFormat where
  | json
  | xlsx
  deriving DecidableEq, Repr

/-- Output actions of main in program order (source lines 191 to 196):
first the JSON dump of the merged data is written to RESULTS_JSON, then
save_to_excel saves the workbook to RESULTS_EXCEL. Paths are relative to
the script directory, which is the same for both. -/
def mainOutputTrace : List (String × FileFormat) :=
  [(RESULTS_JSON, FileFormat.json), (RESULTS_EXCEL, FileFormat.xlsx)]

/-- One district object of the GetDistricts JSON response: the scraper
reads its ArabicName and EnglishName fields. -/
structure DistrictRec where
  arabicName : String
  englishName : String
  deriving DecidableEq, Repr

/-- City record built by get_cities (source lines 119 to 123): keys name,
id and districts of the Python dict. -/
structure City where
  name : String
  id : PyVal
  districts : List String
  deriving DecidableEq, Repr

/-- Embedding of get_districts (source lines 81 to 94). The argument resp
is the outcome of json.loads on the response body: error when the body is
empty or malformed (json.loads raises and nothing catches it), ok with
the district list otherwise. On a nonempty list the function returns a
one-entry dict keyed by str(city_id); on an empty list it returns the
empty dict. -/
def get_districts (city_id : PyVal) (use_arabic : Bool)
    (resp : Except PyErr (List DistrictRec)) :
    Except PyErr (List (PyVal × List String)) :=
  match resp with
  | .error e => .error e
  | .ok res =>
      if res ≠ [] then
        .ok [(pyToStr city_id,
              res.map (fun d => if use_arabic then d.arabicName else d.englishName))]
      else
        .ok []

/-- Merge step of get_and_merge_districts for one region (source lines
171 to 178): gather the per-city fetches in task order (asyncio.gather
propagates the first exception, modelled by mapM over Except), build the
merged dict by successive dict insertions, then set the districts field
of every city to merged_districts.get(city.id, []) with the unconverted
id. The env argument maps a city id to the parse outcome of the
GetDistricts response body for that id. -/
def mergeRegion (env : PyVal → Except PyErr (List DistrictRec))
    (cities : List City) : Except PyErr (List City) := do
  let results ← cities.mapM (fun c => get_districts c.id true (env c.id))
  let merged := results.foldl
    (fun acc entry => entry.foldl (fun m p => dictUpd m p.1 p.2) acc) []
  pure (cities.map (fun c => { c with districts := (dictGet merged c.id).getD [] }))

/-- Embedding of get_and_merge_districts (source lines 169 to 180):
processes the region to cities mapping region by region, replacing each
region list of cities by its merged version. -/
def get_and_merge_districts (env : PyVal → Except PyErr (List DistrictRec))
    (mapping : List (String × List City)) :
    Except PyErr (List (String × List City)) :=
  mapping.mapM (fun p => do pure (p.1, ← mergeRegion env p.2))

/-- Variant of mergeRegion that forwards a language flag to get_districts,
used only to state that the source merge fixes the flag at its default
(Arabic). -/
def mergeRegionWithFlag (use_arabic : Bool)
    (env : PyVal → Except PyErr (List DistrictRec))
    (cities : List City) : Except PyErr (List City) := do
  let results ← cities.mapM (fun c => get_districts c.id use_arabic (env c.id))
  let merged := results.foldl
    (fun acc entry => entry.foldl (fun m p => dictUpd m p.1 p.2) acc) []
  pure (cities.map (fun c => { c with districts := (dictGet merged c.id).getD [] }))

/-- Variant of get_and_merge_districts that forwards a language flag. -/
def get_and_merge_districts_withFlag (use_arabic : Bool)
    (env : PyVal → Except PyErr (List DistrictRec))
    (mapping : List (String × List City)) :
    Except PyErr (List (String × List City)) :=
  mapping.mapM (fun p => do pure (p.1, ← mergeRegionWithFlag use_arabic env p.2))

/-- Static English region table REGIONS (source lines 19 to 33), in the
insertion order of the literal. -/
def REGIONS : List (String × String) :=
  [("1", "Riyadh"), ("6", "Asir"), ("5", "Eastern"), ("8", "Hail"),
   ("10", "Jazan"), ("3", "Madinah"), ("2", "Makkah"),
   ("9", "Northern Borders"), ("4", "Al Qassim"), ("7", "Tabuk"),
   ("11", "Najran"), ("12", "Al Bahah"), ("13", "Al Jawf")]

/-- One option tag of the bundled markup snippet as BeautifulSoup exposes
it to get_regions: the id attribute (absent when the tag has none, in
which case the subscript raises KeyError) and the text content returned
by get_text(). -/
structure OptionTag where
  idAttr : Option String
  text : String
  deriving DecidableEq, Repr

/-- Python str.strip on a character list: drop whitespace from both
ends. Implemented structurally so that concrete instances evaluate. -/
def pyStripChars (l : List Char) : List Char :=
  ((l.dropWhile Char.isWhitespace).reverse.dropWhile Char.isWhitespace).reverse

/-- Python str.strip applied to a str. -/
def pyStrip (s : String) : String := String.mk (pyStripChars s.data)

/-- Decimal digit run read as a Nat: none unless the list is a nonempty
run of ASCII digits. -/
def digitsNat (l : List Char) : Option Nat :=
  match l with
  | [] => none
  | _ =>
      if l.all (fun c => '0' ≤ c && c ≤ '9') then
        some (l.foldl (fun acc c => acc * 10 + (c.toNat - 48)) 0)
      else none

/-- CPython int() applied to a str: surrounding whitespace is stripped,
an optional single sign is allowed, and the rest must be a nonempty run
of decimal digits; anything else raises ValueError (modelled by none).
Underscore digit separators are not modelled; no claim depends on them. -/
def pyIntParse (s : String) : Option Int :=
  match pyStripChars s.data with
  | '-' :: rest => (digitsNat rest).map (fun n => -(n : Int))
  | '+' :: rest => (digitsNat rest).map (fun n => (n : Int))
  | t => (digitsNat t).map (fun n => (n : Int))

/-- Loop body of the parse mode of get_regions (source lines 70 to 76)
for one option tag. The accumulator carries the regions dict and the
number of logged skips. A missing id attribute makes the subscript
option[id] raise KeyError, which the except clause (ValueError only) does
not catch; a present but non-numeric id raises ValueError, which is
caught, logged and skipped; otherwise the else branch stores the stripped
text under str(region_id). -/
def regionsStep (acc : List (String × String) × Nat) (o : OptionTag) :
    Except PyErr (List (String × String) × Nat) :=
  match o.idAttr with
  | none => .error .keyError
  | some s =>
      match pyIntParse s with
      | none => .ok (acc.1, acc.2 + 1)
      | some n => .ok (dictUpd acc.1 (toString n) (pyStrip o.text), acc.2)

/-- Parse mode of get_regions (source lines 67 to 78) over the list of
option tags found in the markup snippet: fold regionsStep from the empty
dict, propagating an uncaught KeyError. Returns the regions dict together
with the number of logged skips. The surrounding file handling (lines 61
to 65: absent snippet gives an empty dict) is I/O outside the claims. -/
def get_regions_parse (options : List OptionTag) :
    Except PyErr (List (String × String) × Nat) :=
  options.foldlM regionsStep ([], 0)

/-- One city object of the GetCities JSON response: the scraper reads its
fkEmirateID, ArabicName, EnglishName and pkCityID fields. The two id
fields are JSON scalars of unknown kind, hence PyVal. -/
structure RawCity where
  fkEmirateID : PyVal
  arabicName : String
  englishName : String
  pkCityID : PyVal
  deriving DecidableEq, Repr

/-- Membership test city.fkEmirateID in regions followed by the lookup
regions[city.fkEmirateID] (source lines 117 to 118): dict keys are str,
so an int foreign key matches nothing. -/
def regionLookup (regions : List (String × String)) : PyVal → Option String
  | .str s => dictGet regions s
  | .int _ => none

/-- Appending a city to its region entry of region_city_mapping (source
lines 124 to 127): append in place when the region name is already a key,
else add a new singleton entry at the end. -/
def appendAt : List (String × List City) → String → City → List (String × List City)
  | [], k, c => [(k, [c])]
  | (k₀, l) :: rest, k, c =>
      if k₀ = k then (k₀, l ++ [c]) :: rest
      else (k₀, l) :: appendAt rest k c

/-- Body of the GetCities response as get_cities observes it: either the
empty text (the truthiness test on line 113 fails) or a nonempty text
whose json.loads outcome is given. -/
inductive CitiesBody where
  | empty
  | nonempty (parse : Except PyErr (List RawCity))

/-- City record built from one raw city (source lines 119 to 123): the
name in the requested language, the pkCityID as id, and an empty district
list. -/
def cityOf (use_arabic : Bool) (city : RawCity) : City :=
  { name := if use_arabic then city.arabicName else city.englishName,
    id := city.pkCityID, districts := [] }

/-- Loop body of get_cities (source lines 116 to 129) for one raw city:
known region appends the built City record to that region, unknown region
logs a warning (the raw city is recorded in the warning list). -/
def citiesStep (regions : List (String × String)) (use_arabic : Bool)
    (acc : List (String × List City) × List RawCity) (city : RawCity) :
    List (String × List City) × List RawCity :=
  match regionLookup regions city.fkEmirateID with
  | some region_name => (appendAt acc.1 region_name (cityOf use_arabic city), acc.2)
  | none => (acc.1, acc.2 ++ [city])

/-- Embedding of get_cities (source lines 97 to 130). An empty response
body skips the whole if block and the function returns None (modelled by
the first component none); a nonempty body is parsed by json.loads, whose
failure propagates; otherwise the loop of citiesStep builds the region to
cities mapping, returned as some. The second component lists the cities
warned about. -/
def get_cities (regions : List (String × String)) (use_arabic : Bool)
    (body : CitiesBody) :
    Except PyErr (Option (List (String × List City)) × List RawCity) :=
  match body with
  | .empty => .ok (none, [])
  | .nonempty (.error e) => .error e
  | .nonempty (.ok data) =>
      let res := data.foldl (citiesStep regions use_arabic) ([], [])
      .ok (some res.1, res.2)

/-- JSON document AST as the Python json module exposes it: objects keep
field order (CPython dicts preserve insertion order and json.dumps and
json.loads preserve document order), numbers relevant here are ints. -/
inductive Json where
  | str (s : String)
  | num (n : Int)
  | arr (xs : List Json)
  | obj (fields : List (String × Json))

/-- JSON encoding of a PyVal scalar as json.dumps renders it. -/
def encodePyVal : PyVal → Json
  | .int n => .num n
  | .str s => .str s

/-- Decoding of a scalar back to a PyVal. -/
def decodePyVal : Json → Option PyVal
  | .num n => some (.int n)
  | .str s => some (.str s)
  | _ => none

/-- JSON encoding of one city dict, with the field order in which
get_cities inserted the keys (name, id, districts). -/
def encodeCity (c : City) : Json :=
  .obj [("name", .str c.name), ("id", encodePyVal c.id),
        ("districts", .arr (c.districts.map .str))]

/-- Decoding of one district name. -/
def decodeStr : Json → Option String
  | .str s => some s
  | _ => none

/-- Structural traversal of a list under Option: fails when any element
fails, otherwise keeps the list order. -/
def mapOpt {a b : Type} (f : a → Option b) : List a → Option (List b)
  | [] => some []
  | x :: l => do
      let y ← f x
      let ys ← mapOpt f l
      pure (y :: ys)

/-- Decoding of one city dict. -/
def decodeCity : Json → Option City
  | .obj [("name", .str n), ("id", idj), ("districts", .arr ds)] => do
      let id ← decodePyVal idj
      let districts ← mapOpt decodeStr ds
      pure { name := n, id := id, districts := districts }
  | _ => none

/-- JSON encoding of the region to cities mapping, as json.dumps(res_data)
writes it on source line 193: an object in region insertion order, each
value an array of city objects in list order. -/
def encodeMapping (m : List (String × List City)) : Json :=
  .obj (m.map (fun p => (p.1, .arr (p.2.map encodeCity))))

/-- Decoding of one region entry back to its city list. -/
def decodeCityList : Json → Option (List City)
  | .arr xs => mapOpt decodeCity xs
  | _ => none

/-- Decoding of the whole document back to the region to cities mapping,
as the json.loads call on source line 138 rebuilds it in document order. -/
def decodeMapping : Json → Option (List (String × List City))
  | .obj fields => mapOpt (fun p => (decodeCityList p.2).map (fun l => (p.1, l))) fields
  | _ => none

/-- Comparison realised by the stable sort on source line 146: Python
sorted with key len(districts) and reverse True puts a before b exactly
when the district count of a is at least that of b, keeping the original
order of ties. -/
def cityGe (a b : City) : Prop := b.districts.length ≤ a.districts.length

instance : DecidableRel cityGe := fun a b =>
  inferInstanceAs (Decidable (b.districts.length ≤ a.districts.length))

/-- The sorted_cities list of source line 146. Python sorted is a stable
sort, and a stable sort is extensionally unique, so the stable
List.insertionSort computes the same list as the timsort of CPython. -/
def sortedCities (cities : List City) : List City := List.insertionSort cityGe cities

/-- One rendered sheet row: the city name in column 1 with its bold flag
(the font set on source line 149), and the districts occupying columns
2 onward in list order (source lines 155 to 156). Row number is one plus
the position in the row list (the count variable of the source). -/
structure SheetRow where
  name : String
  nameBold : Bool
  districts : List String
  deriving DecidableEq, Repr

/-- Rendering of one city to its sheet row. -/
def rowOf (c : City) : SheetRow :=
  { name := c.name, nameBold := true, districts := c.districts }

/-- Rows of one sheet in write order (source lines 147 to 164). -/
def sheetRows (cities : List City) : List SheetRow :=
  (sortedCities cities).map rowOf

/-- Value round(len(name) * 1.2) proposed by one city for the width of
column 1 (source line 150). Python round applies banker rounding, but
len * 6/5 is never exactly a half integer (12 * len is even, so
12 * len mod 10 is never 5), so rounding half up over the exact rational
agrees with CPython float round here. -/
def nameRound (c : City) : ℚ := ((round ((c.name.length : ℚ) * (6/5)) : ℤ) : ℚ)

/-- Update of the column 1 running maximum for one city (source lines
150 to 153): adopt round(len(name) * 1.2) only when strictly greater. -/
def col1Step (m : ℚ) (c : City) : ℚ := if nameRound c > m then nameRound c else m

/-- Final width of column 1 of a sheet (source lines 143 to 153): the
running maximum starts at the float 1.2 and every written city proposes
its rounded scaled name length. -/
def col1Width (cities : List City) : ℚ :=
  (sortedCities cities).foldl col1Step (6/5)

/-- Update of the district_column_lens dict and the matching column width
for one district cell (source lines 157 to 163). The column letter is
modelled by the column index, which get_column_letter maps injectively.
The stored value v gives col_max_len through the expression v or
district_len, so a stored zero behaves like an absent key for the
maximum but still counts as present for the membership test. -/
def dstep (m : List (Nat × Int)) (col : Nat) (dlen : Int) : List (Nat × Int) :=
  let stored := dictGet m col
  let colMax : Int :=
    match stored with
    | none => dlen
    | some v => if v = 0 then dlen else v
  if dlen > colMax ∨ stored = none then dictUpd m col dlen else m

/-- District cells of one city row, enumerated from column 2 (source
line 155), folded through dstep. -/
def cityDistrictsFold (m : List (Nat × Int)) (ds : List String) : List (Nat × Int) :=
  (ds.enumFrom 2).foldl (fun acc p => dstep acc p.1 (p.2.length : Int)) m

/-- Final district column widths of a sheet: the dict state after all
cities are written in sorted order. Each update writes the same value to
the sheet column width and to the dict, so the dict is the width map. -/
def districtWidths (cities : List City) : List (Nat × Int) :=
  (sortedCities cities).foldl (fun m c => cityDistrictsFold m c.districts) []

/-- One rendered sheet: name, rows, and final column widths. -/
structure Sheet where
  name : String
  rows : List SheetRow
  col1W : ℚ
  districtW : List (Nat × Int)
  deriving Repr

/-- Rendering of one region entry to a sheet (source lines 140 to 164). -/
def buildSheet (p : String × List City) : Sheet :=
  { name := p.1, rows := sheetRows p.2, col1W := col1Width p.2,
    districtW := districtWidths p.2 }

/-- Rendering phase of save_to_excel over the decoded document: one sheet
per region in document order. -/
def buildWorkbook (m : List (String × List City)) : List Sheet :=
  m.map buildSheet

/-- Scalar view of dstep on the value stored for one fixed column: none
when the column has no entry yet, otherwise the stored length. Used to
characterise the width dict column by column. -/
def sstep (s : Option Int) (v : Int) : Option Int :=
  match s with
  | none => some v
  | some w => if v > (if w = 0 then v else w) then some v else some w

/-- Districts placed at a given column of a sheet, in write order: for
every city of the sorted list that has at least col - 1 districts, the
district written at that column. Meaningful for col at least 2. -/
def colDistricts (cities : List City) (col : Nat) : List String :=
  (sortedCities cities).filterMap (fun c => c.districts[col - 2]?)

/-- Well-formed region entry extracted from one option tag: present and
numeric id attribute gives the pair str(int(id)) with the stripped text. -/
def optEntry (o : OptionTag) : Option (String × String) :=
  (o.idAttr.bind pyIntParse).map (fun n => (toString n, pyStrip o.text))

/-- Option tag whose id attribute is present but non-numeric: exactly the
entries that get_regions logs and skips. -/
def optBad (o : OptionTag) : Bool :=
  o.idAttr.isSome && (o.idAttr.bind pyIntParse).isNone

/-- District record with its EnglishName field blanked, keeping the
ArabicName. Used to state that the merge step never reads the English
field. -/
def scrubRec (d : DistrictRec) : DistrictRec := { d with englishName := "" }

/-- Environment transformer blanking the EnglishName field of every
district record of every response. -/
def scrubEnglish (env : PyVal → Except PyErr (List DistrictRec)) :
    PyVal → Except PyErr (List DistrictRec) :=
  fun id => (env id).map (List.map scrubRec)

instance : IsTotal City cityGe :=
  ⟨fun a b => le_total b.districts.length a.districts.length⟩

instance : IsTrans City cityGe :=
  ⟨fun _ _ _ h1 h2 => le_trans h2 h1⟩

/-! Helper lemmas shared by the claim theorems. -/

lemma get_districts_scrub (id : PyVal) (r : Except PyErr (List DistrictRec)) :
    get_districts id true (r.map (List.map scrubRec)) = get_districts id true r := by
  cases r with
  | error e => rfl
  | ok res =>
      cases res with
      | nil => rfl
      | cons d rest =>
          simp [get_districts, Except.map, scrubRec, List.map_map, Function.comp]

lemma mergeRegion_scrub (env : PyVal → Except PyErr (List DistrictRec))
    (cities : List City) :
    mergeRegion (scrubEnglish env) cities = mergeRegion env cities := by
  have h : (fun c : City => get_districts c.id true (scrubEnglish env c.id))
      = fun c : City => get_districts c.id true (env c.id) := by
    funext c
    exact get_districts_scrub c.id (env c.id)
  simp only [mergeRegion]
  rw [h]

lemma get_and_merge_scrub (env : PyVal → Except PyErr (List DistrictRec))
    (mapping : List (String × List City)) :
    get_and_merge_districts (scrubEnglish env) mapping
      = get_and_merge_districts env mapping := by
  induction mapping with
  | nil => rfl
  | cons p rest ih =>
      simp only [get_and_merge_districts, List.mapM_cons] at ih ⊢
      rw [mergeRegion_scrub, ih]

lemma mergeRegion_all_empty (env : PyVal → Except PyErr (List DistrictRec))
    (cities : List City) (h : ∀ c ∈ cities, env c.id = Except.ok []) :
    mergeRegion env cities
      = Except.ok (cities.map (fun c => { c with districts := ([] : List String) })) := by
  have hm : cities.mapM (fun c => get_districts c.id true (env c.id))
      = Except.ok (cities.map (fun _ => ([] : List (PyVal × List String)))) := by
    induction cities with
    | nil => rfl
    | cons c rest ih =>
        have hc : env c.id = Except.ok [] := h c (by simp)
        rw [List.mapM_cons, hc]
        rw [ih (fun c hc => h c (by simp [hc]))]
        rfl
  have hfold : ∀ (n : ℕ) (m : List (PyVal × List String)),
      (List.replicate n ([] : List (PyVal × List String))).foldl
        (fun acc entry => entry.foldl (fun m p => dictUpd m p.1 p.2) acc) m = m := by
    intro n
    induction n with
    | zero => intro m; rfl
    | succ k ih => intro m; simpa using ih m
  simp only [mergeRegion, hm]
  simp [hfold, dictGet]

lemma get_regions_parse_go (options : List OptionTag)
    (acc : List (String × String) × Nat) (h : ∀ o ∈ options, o.idAttr ≠ none) :
    options.foldlM regionsStep acc =
      Except.ok ((options.filterMap optEntry).foldl (fun m p => dictUpd m p.1 p.2) acc.1,
                 acc.2 + (options.filter optBad).length) := by
  induction options generalizing acc with
  | nil => rfl
  | cons o rest ih =>
      obtain ⟨s, hs⟩ : ∃ s, o.idAttr = some s := by
        cases ho : o.idAttr with
        | none => exact absurd ho (h o (by simp))
        | some s => exact ⟨s, rfl⟩
      have hrest : ∀ o ∈ rest, o.idAttr ≠ none := fun o ho => h o (by simp [ho])
      cases hp : pyIntParse s with
      | none =>
          have hstep : regionsStep acc o = Except.ok (acc.1, acc.2 + 1) := by
            simp [regionsStep, hs, hp]
          have hent : optEntry o = none := by simp [optEntry, hs, hp]
          have hbad : optBad o = true := by simp [optBad, hs, hp]
          rw [List.foldlM_cons, hstep]
          show rest.foldlM regionsStep (acc.1, acc.2 + 1) = _
          rw [ih (acc.1, acc.2 + 1) hrest]
          simp [hent, hbad]
          omega
      | some n =>
          have hstep : regionsStep acc o
              = Except.ok (dictUpd acc.1 (toString n) (pyStrip o.text), acc.2) := by
            simp [regionsStep, hs, hp]
          have hent : optEntry o = some (toString n, pyStrip o.text) := by
            simp [optEntry, hs, hp]
          have hbad : optBad o = false := by simp [optBad, hs, hp]
          rw [List.foldlM_cons, hstep]
          show rest.foldlM regionsStep (dictUpd acc.1 (toString n) (pyStrip o.text), acc.2) = _
          rw [ih _ hrest]
          simp [hent, hbad]

/-! Claim theorems. -/

/-- C1: the claim states that after get_and_merge_districts every city
carries exactly the districts its own fetch returned. The code keys the
fetched districts by str(city_id) but looks them up with the unconverted
id; for the numeric ids that the remote JSON carries the lookup always
misses. This evaluation shows the divergence: the fetch for city id 5
returns one district, yet the merged mapping leaves the city with an
empty district list. -/
theorem C1_numeric_id_merge_eval :
    get_districts (PyVal.int 5) true
        (Except.ok [{ arabicName := "A", englishName := "B" }])
      = Except.ok [(PyVal.str "5", ["A"])] ∧
    get_and_merge_districts
        (fun _ => Except.ok [{ arabicName := "A", englishName := "B" }])
        [("Riyadh", [{ name := "N", id := PyVal.int 5, districts := [] }])]
      = Except.ok [("Riyadh", [{ name := "N", id := PyVal.int 5, districts := [] }])] := by
  constructor <;> rfl

/-- C2: the two output path constants are equal, so the trace of main
writes the JSON document to that path and then saves the spreadsheet
workbook over the very same path. -/
theorem C2_output_paths_collide :
    RESULTS_JSON = RESULTS_EXCEL ∧
    mainOutputTrace = [(RESULTS_JSON, FileFormat.json), (RESULTS_JSON, FileFormat.xlsx)] :=
  ⟨rfl, rfl⟩

/-- C3 counterexample: the claim states that a response body that fails
to parse yields an empty district list rather than an error. In the code
json.loads is not guarded, so the JSONDecodeError raised on an empty or
malformed body propagates out of get_districts instead of producing an
empty list. -/
theorem C3_counterexample :
    get_districts (PyVal.int 1) true (Except.error PyErr.jsonDecodeError)
      = Except.error PyErr.jsonDecodeError ∧
    get_districts (PyVal.int 1) true (Except.error PyErr.jsonDecodeError)
      ≠ Except.ok [] := by
  exact ⟨rfl, by decide⟩

/-- C3 amended: a response body that parses to an empty list yields the
empty dict from get_districts, and when every fetch of a region parses to
an empty list the merge leaves every city of the region with an empty
district list; but a body that is empty or fails to parse makes
get_districts propagate the JSONDecodeError of json.loads. -/
theorem C3_empty_parse_yields_empty :
    (∀ (id : PyVal) (u : Bool), get_districts id u (Except.ok []) = Except.ok []) ∧
    (∀ (id : PyVal) (u : Bool) (e : PyErr),
        get_districts id u (Except.error e) = Except.error e) ∧
    (∀ (env : PyVal → Except PyErr (List DistrictRec)) (cities : List City),
        (∀ c ∈ cities, env c.id = Except.ok []) →
        mergeRegion env cities
          = Except.ok (cities.map (fun c => { c with districts := ([] : List String) }))) :=
  ⟨fun _ _ => rfl, fun _ _ _ => rfl, mergeRegion_all_empty⟩

/-- C3 witness: the amended statement applied to one concrete region of
one city whose fetch parsed to the empty list. -/
theorem C3_empty_parse_witness :
    mergeRegion (fun _ => Except.ok []) [{ name := "N", id := PyVal.int 1, districts := [] }]
      = Except.ok [{ name := "N", id := PyVal.int 1, districts := [] }] := by
  have h := C3_empty_parse_yields_empty.2.2 (fun _ => Except.ok [])
    [{ name := "N", id := PyVal.int 1, districts := [] }] (fun c _ => rfl)
  simpa using h

/-- C4 counterexample: the claim states that no single malformed option
entry, including one whose identifier attribute is missing, can fail the
whole load. An option tag without an id attribute makes the subscript
raise KeyError, which the except clause (ValueError only) does not catch,
so the whole parse fails instead of returning the well-formed entries. -/
theorem C4_counterexample :
    get_regions_parse [{ idAttr := none, text := "Riyadh" }] = Except.error PyErr.keyError ∧
    get_regions_parse [{ idAttr := none, text := "Riyadh" }] ≠ Except.ok ([], 0) := by
  exact ⟨rfl, by decide⟩

/-- C4 amended: when every option tag carries an id attribute, the parse
never fails: entries with a non-numeric id are logged and skipped (their
count is returned) and the result holds exactly the well-formed entries,
keyed by the normalised integer id with the stripped text. A tag with no
id attribute, however, fails the whole load with KeyError. -/
theorem C4_parse_skips_bad_ids (options : List OptionTag)
    (h : ∀ o ∈ options, o.idAttr ≠ none) :
    get_regions_parse options =
      Except.ok ((options.filterMap optEntry).foldl (fun m p => dictUpd m p.1 p.2) [],
                 (options.filter optBad).length) := by
  simpa [get_regions_parse] using get_regions_parse_go options ([], 0) h

/-- C4 witness: one well-formed and one malformed (non-numeric id) entry;
the well-formed entry is returned and one skip is counted. -/
theorem C4_parse_skips_bad_ids_witness :
    get_regions_parse [{ idAttr := some "1", text := "Riyadh" },
                       { idAttr := some "x", text := "Bad" }]
      = Except.ok ([("1", "Riyadh")], 1) := by
  have h := C4_parse_skips_bad_ids
    [{ idAttr := some "1", text := "Riyadh" }, { idAttr := some "x", text := "Bad" }]
    (by decide)
  rw [h]
  decide

/-- C9: an empty response body from the city listing endpoint makes
get_cities fall through its if block and return None (not an empty
mapping), which is what the district merge stage then receives. -/
theorem C9_empty_body_returns_none (regions : List (String × String)) (use_arabic : Bool) :
    get_cities regions use_arabic CitiesBody.empty = Except.ok (none, []) := rfl

/-- C10: get_and_merge_districts calls get_districts without forwarding
any language flag, so the merge behaves exactly like the flagged variant
fixed at the default use_arabic true, and blanking every EnglishName
field of every response changes nothing in its output. -/
theorem C10_merge_always_arabic :
    (∀ (env : PyVal → Except PyErr (List DistrictRec))
        (mapping : List (String × List City)),
        get_and_merge_districts env mapping
          = get_and_merge_districts_withFlag true env mapping) ∧
    (∀ (env : PyVal → Except PyErr (List DistrictRec))
        (mapping : List (String × List City)),
        get_and_merge_districts (scrubEnglish env) mapping
          = get_and_merge_districts env mapping) :=
  ⟨fun _ _ => rfl, fun env mapping => get_and_merge_scrub env mapping⟩

lemma decodeStr_map (ds : List String) : mapOpt decodeStr (ds.map Json.str) = some ds := by
  induction ds with
  | nil => rfl
  | cons d rest ih => simp [mapOpt, decodeStr, ih]

lemma decodePyVal_enc (v : PyVal) : decodePyVal (encodePyVal v) = some v := by
  cases v <;> rfl

lemma decodeCity_enc (c : City) : decodeCity (encodeCity c) = some c := by
  simp [encodeCity, decodeCity, decodePyVal_enc, decodeStr_map]

lemma decodeCityList_enc (cs : List City) :
    decodeCityList (.arr (cs.map encodeCity)) = some cs := by
  induction cs with
  | nil => rfl
  | cons c rest ih =>
      simp only [decodeCityList] at ih ⊢
      simp [mapOpt, decodeCity_enc, ih]

/-- C8: the JSON document written by main reproduces the region to
cities mapping exactly when read back: same region order, same city
order inside each region, same district order inside each city (the
round trip is the identity on the mapping, which preserves every order). -/
theorem C8_json_roundtrip (m : List (String × List City)) :
    decodeMapping (encodeMapping m) = some m := by
  induction m with
  | nil => rfl
  | cons p rest ih =>
      simp only [encodeMapping, decodeMapping, List.map_cons] at ih ⊢
      simp [mapOpt, decodeCityList_enc, ih]

lemma dictGet_appendAt (m : List (String × List City)) (k : String) (c : City)
    (r : String) :
    dictGet (appendAt m k c) r =
      if r = k then some ((dictGet m k).getD [] ++ [c]) else dictGet m r := by
  induction m with
  | nil =>
      by_cases h : r = k
      · subst h; simp [appendAt, dictGet]
      · simp [appendAt, dictGet, h, Ne.symm h]
  | cons hd tl ih =>
      obtain ⟨k₀, l⟩ := hd
      by_cases hk : k₀ = k
      · subst hk
        by_cases hr : r = k₀
        · subst hr; simp [appendAt, dictGet]
        · simp [appendAt, dictGet, hr, Ne.symm hr]
      · by_cases hr : k₀ = r
        · subst hr
          simp [appendAt, dictGet, hk]
        · simp [appendAt, dictGet, hk, hr, ih]

lemma citiesFold_snd (regions : List (String × String)) (u : Bool) (data : List RawCity) :
    ∀ (m : List (String × List City)) (w : List RawCity),
      (data.foldl (citiesStep regions u) (m, w)).2
        = w ++ data.filter (fun c => (regionLookup regions c.fkEmirateID).isNone) := by
  induction data with
  | nil => intro m w; simp
  | cons c rest ih =>
      intro m w
      cases hc : regionLookup regions c.fkEmirateID with
      | some rn => simpa [citiesStep, hc] using ih _ w
      | none => simpa [citiesStep, hc] using ih m (w ++ [c])

lemma citiesFold_get (regions : List (String × String)) (u : Bool) (data : List RawCity) :
    ∀ (m : List (String × List City)) (w : List RawCity) (r : String),
      dictGet ((data.foldl (citiesStep regions u) (m, w)).1) r
        = match dictGet m r with
          | some l => some (l ++ (data.filter
              (fun c => regionLookup regions c.fkEmirateID = some r)).map (cityOf u))
          | none =>
              if (data.filter (fun c => regionLookup regions c.fkEmirateID = some r)) = []
              then none
              else some ((data.filter
                (fun c => regionLookup regions c.fkEmirateID = some r)).map (cityOf u)) := by
  induction data with
  | nil =>
      intro m w r
      cases h : dictGet m r <;> simp [h]
  | cons c rest ih =>
      intro m w r
      cases hc : regionLookup regions c.fkEmirateID with
      | none =>
          have hne : ¬ (regionLookup regions c.fkEmirateID = some r) := by simp [hc]
          simp only [List.foldl_cons, citiesStep, hc]
          rw [ih m (w ++ [c]) r]
          simp [List.filter_cons, hne]
      | some rn =>
          simp only [List.foldl_cons, citiesStep, hc]
          rw [ih (appendAt m rn (cityOf u c)) w r, dictGet_appendAt]
          by_cases hr : r = rn
          · subst hr
            cases h : dictGet m r <;> simp [h, hc, List.filter_cons]
          · have hne : (some rn : Option String) ≠ some r := by simpa using Ne.symm hr
            simp [hr, hc, hne, List.filter_cons]

/-- C5: over any parsed city listing, get_cities returns the mapping in
which every region name r holds exactly the cities whose region reference
is a catalog key naming r, in arrival order, and the warning log holds
exactly the cities whose region reference is not a catalog key. In
particular a city enters the mapping if and only if its region reference
is a key of the catalog. -/
theorem C5_city_kept_iff_region_known (regions : List (String × String))
    (u : Bool) (data : List RawCity) :
    get_cities regions u (CitiesBody.nonempty (Except.ok data))
      = Except.ok (some (data.foldl (citiesStep regions u) ([], [])).1,
                   data.filter (fun c => (regionLookup regions c.fkEmirateID).isNone)) ∧
    ∀ r : String,
      dictGet (data.foldl (citiesStep regions u) ([], [])).1 r
        = if (data.filter (fun c => regionLookup regions c.fkEmirateID = some r)) = []
          then none
          else some ((data.filter
            (fun c => regionLookup regions c.fkEmirateID = some r)).map (cityOf u)) := by
  constructor
  · simp only [get_cities]
    rw [citiesFold_snd regions u data [] []]
    simp
  · intro r
    have h := citiesFold_get regions u data [] [] r
    simpa [dictGet] using h

/-- C6: sheet rows are the cities in descending order of district count
(a later row never has more districts than an earlier one, and the rows
are exactly the cities), each row holding the bold city name in column 1
and its districts in columns 2 onward in list order; on the spec scenario
(City A with three districts, City B with one, region Riyadh) City A is
row 1 and City B is row 2 whichever order the document listed them in. -/
theorem C6_rows_sorted_by_district_count :
    (∀ cities : List City,
        (sheetRows cities).Pairwise
          (fun a b => b.districts.length ≤ a.districts.length)) ∧
    (∀ cities : List City, (sheetRows cities).Perm (cities.map rowOf)) ∧
    (buildSheet ("Riyadh",
        [{ name := "City A", id := PyVal.int 1, districts := ["d1", "d2", "d3"] },
         { name := "City B", id := PyVal.int 2, districts := ["e1"] }])).name
      = "Riyadh" ∧
    sheetRows
        [{ name := "City A", id := PyVal.int 1, districts := ["d1", "d2", "d3"] },
         { name := "City B", id := PyVal.int 2, districts := ["e1"] }]
      = [{ name := "City A", nameBold := true, districts := ["d1", "d2", "d3"] },
         { name := "City B", nameBold := true, districts := ["e1"] }] ∧
    sheetRows
        [{ name := "City B", id := PyVal.int 2, districts := ["e1"] },
         { name := "City A", id := PyVal.int 1, districts := ["d1", "d2", "d3"] }]
      = [{ name := "City A", nameBold := true, districts := ["d1", "d2", "d3"] },
         { name := "City B", nameBold := true, districts := ["e1"] }] := by
  refine ⟨?_, ?_, rfl, by decide, by decide⟩
  · intro cities
    have h := List.sorted_insertionSort cityGe cities
    unfold sheetRows
    rw [List.pairwise_map]
    simpa [rowOf, cityGe, sortedCities, List.Sorted] using h
  · intro cities
    exact (List.perm_insertionSort cityGe cities).map rowOf

lemma dictGet_dictUpd {α β : Type} [DecidableEq α] (m : List (α × β)) (k : α)
    (v : β) (r : α) :
    dictGet (dictUpd m k v) r = if k = r then some v else dictGet m r := by
  induction m with
  | nil => simp [dictUpd, dictGet]
  | cons hd tl ih =>
      obtain ⟨k₀, v₀⟩ := hd
      by_cases hk : k₀ = k
      · subst hk
        by_cases hr : k₀ = r <;> simp [dictUpd, dictGet, hr]
      · by_cases hr : k₀ = r
        · subst hr
          simp [dictUpd, dictGet, hk, Ne.symm hk]
        · simp [dictUpd, dictGet, hk, hr, ih]

lemma dictGet_dstep (m : List (Nat × Int)) (col : Nat) (v : Int) (r : Nat) :
    dictGet (dstep m col v) r
      = if col = r then sstep (dictGet m col) v else dictGet m r := by
  by_cases hcr : col = r
  · subst hcr
    rcases h : dictGet m col with _ | w
    · simp [dstep, sstep, h, dictGet_dictUpd]
    · by_cases hv : v > (if w = 0 then v else w)
      · simp [dstep, sstep, h, hv, dictGet_dictUpd]
      · simp [dstep, sstep, h, hv]
  · rcases h : dictGet m col with _ | w
    · simp [dstep, h, dictGet_dictUpd, hcr]
    · by_cases hv : v > (if w = 0 then v else w)
      · simp [dstep, h, hv, dictGet_dictUpd, hcr]
      · simp [dstep, h, hv, hcr]

lemma dictGet_foldl_dstep (evs : List (Nat × Int)) (m : List (Nat × Int)) (col : Nat) :
    dictGet (evs.foldl (fun acc p => dstep acc p.1 p.2) m) col
      = ((evs.filter (fun p => p.1 = col)).map Prod.snd).foldl sstep (dictGet m col) := by
  induction evs generalizing m with
  | nil => rfl
  | cons e rest ih =>
      obtain ⟨c0, v0⟩ := e
      by_cases he : c0 = col
      · subst he
        simp only [List.foldl_cons, List.filter_cons]
        rw [ih]
        simp [dictGet_dstep]
      · simp only [List.foldl_cons, List.filter_cons]
        rw [ih]
        simp [dictGet_dstep, he]

lemma cityDistrictsFold_eq (m : List (Nat × Int)) (ds : List String) :
    cityDistrictsFold m ds
      = ((ds.enumFrom 2).map (fun p => (p.1, (p.2.length : Int)))).foldl
          (fun acc p => dstep acc p.1 p.2) m := by
  unfold cityDistrictsFold
  rw [List.foldl_map]

lemma foldCities_events (l : List City) :
    ∀ m : List (Nat × Int),
      l.foldl (fun m c => cityDistrictsFold m c.districts) m
        = ((l.map (fun c =>
              (c.districts.enumFrom 2).map (fun p => (p.1, (p.2.length : Int))))).flatten).foldl
            (fun acc p => dstep acc p.1 p.2) m := by
  induction l with
  | nil => intro m; rfl
  | cons c rest ih =>
      intro m
      simp only [List.map_cons, List.flatten_cons, List.foldl_append, List.foldl_cons]
      rw [ih, cityDistrictsFold_eq]

lemma enumFrom_filter_gt (ds : List String) :
    ∀ (k col : Nat), col < k →
      ((ds.enumFrom k).map (fun p => (p.1, (p.2.length : Int)))).filter
          (fun p => p.1 = col) = [] := by
  induction ds with
  | nil => intro k col _; rfl
  | cons d rest ih =>
      intro k col h
      simp only [List.enumFrom, List.map_cons, List.filter_cons]
      have hk : ¬ (k = col) := by omega
      rw [if_neg (by simpa using hk)]
      exact ih (k + 1) col (by omega)

lemma enumFrom_filter_at (ds : List String) :
    ∀ (k col : Nat), k ≤ col →
      ((ds.enumFrom k).map (fun p => (p.1, (p.2.length : Int)))).filter
          (fun p => p.1 = col)
        = match ds[col - k]? with
          | some d => [(col, (d.length : Int))]
          | none => [] := by
  induction ds with
  | nil => intro k col _; simp
  | cons d rest ih =>
      intro k col h
      simp only [List.enumFrom, List.map_cons, List.filter_cons]
      by_cases hk : k = col
      · subst hk
        simp only [Nat.sub_self, List.getElem?_cons_zero]
        rw [if_pos (by simp), enumFrom_filter_gt rest (k + 1) k (by omega)]
      · have hlt : k < col := lt_of_le_of_ne h hk
        rw [if_neg (by simpa using hk), ih (k + 1) col hlt]
        obtain ⟨j, hj⟩ : ∃ j, col - k = j + 1 := ⟨col - k - 1, by omega⟩
        have hj2 : col - (k + 1) = j := by omega
        rw [hj, hj2, List.getElem?_cons_succ]

lemma sstep_zero_fold (vs : List Int) : vs.foldl sstep (some 0) = some 0 := by
  induction vs with
  | nil => rfl
  | cons v rest ih => simpa [sstep] using ih

lemma sstep_pos_fold (vs : List Int) :
    ∀ w : Int, 0 < w → (∀ v ∈ vs, 0 ≤ v) →
      vs.foldl sstep (some w) = some (vs.foldl max w) := by
  induction vs with
  | nil => intro w _ _; rfl
  | cons v rest ih =>
      intro w hw hvs
      have hstep : sstep (some w) v = some (max w v) := by
        have hw0 : ¬ (w = 0) := by omega
        by_cases h : v > w
        · simp [sstep, hw0, h, max_eq_right (le_of_lt h)]
        · simp [sstep, hw0, h, max_eq_left (le_of_not_lt h)]
      rw [List.foldl_cons, hstep, List.foldl_cons]
      exact ih (max w v) (lt_of_lt_of_le hw (le_max_left _ _))
        (fun x hx => hvs x (by simp [hx]))

lemma sstep_mono_getD (s : Option Int) (v : Int) (hv : 0 ≤ v) :
    s.getD 0 ≤ (sstep s v).getD 0 := by
  cases s with
  | none => simpa [sstep] using hv
  | some w =>
      by_cases hw : w = 0
      · subst hw; simp [sstep]
      · by_cases h : v > w
        · simp [sstep, hw, h]
          omega
        · simp [sstep, hw, h]

lemma sstep_fold_mono (vs : List Int) :
    ∀ s : Option Int, (∀ v ∈ vs, 0 ≤ v) →
      s.getD 0 ≤ (vs.foldl sstep s).getD 0 := by
  induction vs with
  | nil => intro s _; simp
  | cons v rest ih =>
      intro s hvs
      rw [List.foldl_cons]
      exact le_trans (sstep_mono_getD s v (hvs v (by simp)))
        (ih (sstep s v) (fun x hx => hvs x (by simp [hx])))

lemma col1Step_eq_max (m : ℚ) (c : City) : col1Step m c = max m (nameRound c) := by
  by_cases h : nameRound c > m
  · simp [col1Step, h, max_eq_right (le_of_lt h)]
  · simp [col1Step, h, max_eq_left (le_of_not_lt h)]

lemma foldl_col1Step (l : List City) :
    ∀ m : ℚ, l.foldl col1Step m = (l.map nameRound).foldl max m := by
  induction l with
  | nil => intro m; rfl
  | cons c rest ih => intro m; simp [List.foldl_cons, col1Step_eq_max, ih]

lemma col1Width_eq_max (cities : List City) :
    col1Width cities = (cities.map nameRound).foldl max (6/5) := by
  unfold col1Width
  rw [foldl_col1Step]
  exact ((List.perm_insertionSort cityGe cities).map nameRound).foldl_eq (6/5)

lemma events_filter_col (l : List City) (col : Nat) (h2 : 2 ≤ col) :
    ((l.map (fun c =>
        (c.districts.enumFrom 2).map (fun p => (p.1, (p.2.length : Int))))).flatten).filter
        (fun p => p.1 = col)
      = (l.filterMap (fun c => c.districts[col - 2]?)).map
          (fun d => (col, (d.length : Int))) := by
  induction l with
  | nil => rfl
  | cons c rest ih =>
      simp only [List.map_cons, List.flatten_cons, List.filter_append, List.filterMap_cons]
      rw [ih, enumFrom_filter_at c.districts 2 col h2]
      cases h : c.districts[col - 2]? with
      | some d => simp
      | none => simp

lemma cityDistrictsFold_mono (m : List (Nat × Int)) (ds : List String) (col : Nat) :
    (dictGet m col).getD 0 ≤ (dictGet (cityDistrictsFold m ds) col).getD 0 := by
  rw [cityDistrictsFold_eq, dictGet_foldl_dstep]
  apply sstep_fold_mono
  intro v hv
  rcases List.mem_map.mp hv with ⟨q, hq, rfl⟩
  rcases List.mem_map.mp (List.mem_filter.mp hq).1 with ⟨p, _, rfl⟩
  exact Int.natCast_nonneg _

lemma districtWidths_char (cities : List City) (col : Nat) (h2 : 2 ≤ col) :
    dictGet (districtWidths cities) col
      = match colDistricts cities col with
        | [] => none
        | d :: ds => some (if d.length = 0 then 0
                           else (ds.map (fun x => (x.length : Int))).foldl
                             max ((d.length : Int))) := by
  unfold districtWidths
  rw [foldCities_events, dictGet_foldl_dstep, events_filter_col _ col h2]
  have hcd : (sortedCities cities).filterMap (fun c => c.districts[col - 2]?)
      = colDistricts cities col := rfl
  rw [hcd, List.map_map]
  have hsnd : (Prod.snd ∘ fun d : String => (col, (d.length : Int)))
      = fun d : String => (d.length : Int) := rfl
  rw [hsnd]
  cases hc : colDistricts cities col with
  | nil => rfl
  | cons d ds =>
      simp only [List.map_cons, List.foldl_cons, dictGet]
      by_cases hd : d.length = 0
      · have : ((d.length : Int)) = 0 := by exact_mod_cast hd
        rw [show sstep none (d.length : Int) = some 0 by simp [sstep, this]]
        rw [sstep_zero_fold]
        simp [hd]
      · have hpos : 0 < (d.length : Int) := by
          have : 0 < d.length := Nat.pos_of_ne_zero hd
          exact_mod_cast this
        rw [show sstep none (d.length : Int) = some (d.length : Int) from rfl]
        rw [sstep_pos_fold _ _ hpos]
        · simp [hd]
        · intro v hv
          rcases List.mem_map.mp hv with ⟨x, _, rfl⟩
          exact Int.natCast_nonneg _

/-- C7 counterexample: the claim states that column 1 ends at the longest
city name length scaled by 1.2 and that every district column ends at the
length of the longest district name placed there. With cities (abc, one
empty district) and (ab, district wxyz): column 1 ends at 4, the rounded
value, not at 3 * 1.2 = 3.6; and column 2 ends at width 0, not at 4, the
length of wxyz, because the stored 0 short-circuits the or expression and
the update condition never fires again for that column. -/
theorem C7_counterexample :
    col1Width [{ name := "abc", id := PyVal.int 1, districts := [""] },
               { name := "ab", id := PyVal.int 2, districts := ["wxyz"] }] = 4 ∧
    (4 : ℚ) ≠ (3 : ℚ) * (6/5) ∧
    dictGet (districtWidths
        [{ name := "abc", id := PyVal.int 1, districts := [""] },
         { name := "ab", id := PyVal.int 2, districts := ["wxyz"] }]) 2 = some 0 ∧
    (0 : Int) ≠ ((("wxyz" : String).length : Int)) := by
  refine ⟨?_, by norm_num, by decide, by decide⟩
  have h1 : nameRound { name := "abc", id := PyVal.int 1, districts := [""] } = 4 := by
    have hl : ("abc" : String).length = 3 := rfl
    simp only [nameRound, hl]
    norm_num [round_eq]
  have h2 : nameRound { name := "ab", id := PyVal.int 2, districts := ["wxyz"] } = 2 := by
    have hl : ("ab" : String).length = 2 := rfl
    simp only [nameRound, hl]
    norm_num [round_eq]
  rw [col1Width_eq_max]
  simp only [List.map_cons, List.map_nil, List.foldl_cons, List.foldl_nil, h1, h2]
  norm_num [max_def]

/-- C7 amended: while a sheet is written, widths never shrink (the column
1 running maximum only grows with each city, and a later city never
lowers any stored district column width); the final column 1 width is the
maximum of the initial 1.2 and round(1.2 * len(name)) over all cities
(Python round of the exact rational, whose half-up and half-even values
coincide here); and the final width of district column col is the length
of the longest district name placed at that column, except that a column
whose first placed district name is empty is frozen at width 0. -/
theorem C7_width_bookkeeping :
    (∀ (m : ℚ) (c : City), m ≤ col1Step m c) ∧
    (∀ (m : List (Nat × Int)) (ds : List String) (col : Nat),
        (dictGet m col).getD 0 ≤ (dictGet (cityDistrictsFold m ds) col).getD 0) ∧
    (∀ cities : List City, col1Width cities = (cities.map nameRound).foldl max (6/5)) ∧
    (∀ (cities : List City) (col : Nat), 2 ≤ col →
        dictGet (districtWidths cities) col
          = match colDistricts cities col with
            | [] => none
            | d :: ds => some (if d.length = 0 then 0
                               else (ds.map (fun x => (x.length : Int))).foldl
                                 max ((d.length : Int)))) := by
  refine ⟨?_, cityDistrictsFold_mono, col1Width_eq_max, districtWidths_char⟩
  intro m c
  rw [col1Step_eq_max]
  exact le_max_left _ _

/-- C7 witness: the amended characterisation applied to one sheet of one
city with one district (xy at column 2, width 2). -/
theorem C7_width_bookkeeping_witness :
    dictGet (districtWidths [{ name := "ab", id := PyVal.int 1, districts := ["xy"] }]) 2
      = some (2 : Int) := by
  have h := C7_width_bookkeeping.2.2.2
    [{ name := "ab", id := PyVal.int 1, districts := ["xy"] }] 2 (by norm_num)
  rw [h]
  decide
